import Mathlib

/-!
Verification of the core client-side logic of the Pixel-Hydrogen storefront:
the chunk paginator of the collection route and the image presentation
controller (carousel) of the product route.

The definitions below are a shallow embedding of the JavaScript source:
query strings are modelled as association lists with URLSearchParams
semantics, JS numbers reaching the page-arithmetic as rationals, and the
React component state of the product page as an explicit record acted on
by an event-step function.
-/

namespace Pagination

/-- One `key=value` entry of a query string. -/
abbrev Params := List (String × String)

/-- Models `URLSearchParams.get`: the value of the first entry with the given key,
`none` when the key is absent. -/
def getParam (l : Params) (k : String) : Option String :=
  (l.find? (fun kv => kv.1 = k)).map (fun kv => kv.2)

/-- Models `URLSearchParams.delete`: removes every entry with the given key. -/
def deleteParam (l : Params) (k : String) : Params :=
  l.filter (fun kv => ¬ kv.1 = k)

/-- Models `URLSearchParams.set`: replaces the value of the first entry with the
given key and removes the other entries with that key; appends the entry
at the end when the key is absent. -/
def setParam (l : Params) (k v : String) : Params :=
  match l with
  | [] => [(k, v)]
  | kv :: rest =>
    if kv.1 = k then (k, v) :: deleteParam rest k
    else kv :: setParam rest k v

/-- All values carried by a key, in order (used to state that keys other
than `page`/`cursor`/`direction` are untouched). -/
def valuesOf (l : Params) (k : String) : List String :=
  (l.filter (fun kv => kv.1 = k)).map (fun kv => kv.2)

/-- A relative URL: pathname plus query parameters. -/
structure Url where
  path : String
  params : Params
deriving DecidableEq, Repr

/-- JS truthiness of a nullable string: `null` and `""` are falsy. -/
def isTruthy : Option String → Bool
  | none => false
  | some s => ¬ s = ""

/-- The `PAGE_SIZE` constant of the collection route. -/
def PAGE_SIZE : Nat := 50

/-- The `PAGES_PER_CHUNK` constant of the collection route. -/
def PAGES_PER_CHUNK : Nat := 4

/-- The `pageInfo` of the fetched products connection. -/
structure PageInfo where
  hasNextPage : Bool
  hasPreviousPage : Bool
  startCursor : Option String
  endCursor : Option String
deriving DecidableEq, Repr

/-- Models `String(n)` for the JS numbers that reach `buildPageUrl`. Integral
values render exactly as JS does; the decimal rendering of non-integral
values is not modelled (no claim inspects the `page` value of a URL built
from a non-integral number). -/
def jsNumToString (q : ℚ) : String :=
  if q.den = 1 then toString q.num else toString q

/-- The `buildPageUrl` function of the collection component. `chunkCursor` and
`chunkDirection` are the current URL's `cursor`/`direction` values, which
the source uses as default arguments. -/
def buildPageUrl (loc : Url) (cursor direction : Option String) (nextPage : ℚ) : Url :=
  let nextParams := setParam loc.params "page" (jsNumToString nextPage)
  if isTruthy cursor ∧ isTruthy direction then
    { path := loc.path
      params := setParam (setParam nextParams "cursor" (cursor.getD ""))
        "direction" (direction.getD "") }
  else
    { path := loc.path
      params := deleteParam (deleteParam nextParams "cursor") "direction" }

/-- The `chunkCursor` value: the `cursor` query parameter of the current URL. -/
def chunkCursor (loc : Url) : Option String := getParam loc.params "cursor"

/-- The `chunkDirection` value: the `direction` query parameter of the current URL. -/
def chunkDirection (loc : Url) : Option String := getParam loc.params "direction"

/-- Computes `requestedPage = Number(searchParams.get('page') || '1') || 1`.
`toNum` models `Number` on strings, `none` standing for `NaN`; an absent
or empty parameter falls back to `'1'`, and a `NaN` or `0` numeric value
falls back to `1` through `|| 1`. -/
def requestedPage (toNum : String → Option ℚ) (loc : Url) : ℚ :=
  match getParam loc.params "page" with
  | none => 1
  | some s =>
    if s = "" then 1
    else match toNum s with
      | none => 1
      | some q => if q = 0 then 1 else q

/-- Computes `totalPages = Math.max(1, Math.ceil(nodes.length / PAGE_SIZE))`,
stated for an arbitrary positive page size. -/
def totalPagesOf (len pageSize : Nat) : Nat :=
  max 1 ((len + pageSize - 1) / pageSize)

/-- The `totalPages` value of the collection component. -/
def totalPages (len : Nat) : Nat := totalPagesOf len PAGE_SIZE

/-- Computes `currentPage = Math.min(Math.max(1, requestedPage), totalPages)`. -/
def currentPage (toNum : String → Option ℚ) (loc : Url) (len : Nat) : ℚ :=
  min (max 1 (requestedPage toNum loc)) (totalPages len : ℚ)

/-- The slice shown for an (integral) page number `p`:
`nodes.slice((p-1)*pageSize, (p-1)*pageSize + pageSize)`. -/
def pageSlice {α : Type} (nodes : List α) (pageSize p : Nat) : List α :=
  ((nodes.drop ((p - 1) * pageSize)).take pageSize)

/-- Rational addition written through `mkRat`, so that the kernel can
evaluate concrete instances (the `Rat.add` constant itself does not
delta-reduce); `ratAdd_eq_add` shows it is ordinary addition. -/
def ratAdd (a b : ℚ) : ℚ := mkRat (a.num * b.den + b.num * a.den) (a.den * b.den)

/-- Rational subtraction through `mkRat`; `ratSub_eq_sub` shows it is
ordinary subtraction. -/
def ratSub (a b : ℚ) : ℚ := mkRat (a.num * b.den - b.num * a.den) (a.den * b.den)

/-- Computes `hasNextPageInChunk = currentPage < totalPages`. -/
def hasNextPageInChunk (toNum : String → Option ℚ) (loc : Url) (len : Nat) : Bool :=
  currentPage toNum loc len < (totalPages len : ℚ)

/-- Computes `hasPreviousPageInChunk = currentPage > 1`. -/
def hasPreviousPageInChunk (toNum : String → Option ℚ) (loc : Url) (len : Nat) : Bool :=
  1 < currentPage toNum loc len

/-- The `nextUrl` value of the collection component. -/
def nextUrl (toNum : String → Option ℚ) (loc : Url) (len : Nat) (info : PageInfo) :
    Option Url :=
  if hasNextPageInChunk toNum loc len then
    some (buildPageUrl loc (chunkCursor loc) (chunkDirection loc)
      (ratAdd (currentPage toNum loc len) 1))
  else if info.hasNextPage ∧ isTruthy info.endCursor then
    some (buildPageUrl loc info.endCursor (some "next") 1)
  else
    none

/-- The `prevUrl` value of the collection component. -/
def prevUrl (toNum : String → Option ℚ) (loc : Url) (len : Nat) (info : PageInfo) :
    Option Url :=
  if hasPreviousPageInChunk toNum loc len then
    some (buildPageUrl loc (chunkCursor loc) (chunkDirection loc)
      (ratSub (currentPage toNum loc len) 1))
  else if info.hasPreviousPage ∧ isTruthy info.startCursor then
    some (buildPageUrl loc info.startCursor (some "previous") (PAGES_PER_CHUNK : ℚ))
  else
    none

/-- The page-number link for a (1-based) page number, as rendered in the
pagination strip: `buildPageUrl(pageNumber)` with the default
cursor/direction arguments. -/
def pageLink (loc : Url) (pageNumber : Nat) : Url :=
  buildPageUrl loc (chunkCursor loc) (chunkDirection loc) (pageNumber : ℚ)

/-- The list of page-number links `1..totalPages`. -/
def pageLinks (loc : Url) (len : Nat) : List Url :=
  (List.range (totalPages len)).map (fun i => pageLink loc (i + 1))

/-- Value of a decimal digit character, used by `decimalNum`. -/
def charDigit (c : Char) : Option Nat :=
  if c = '0' then some 0 else if c = '1' then some 1 else if c = '2' then some 2
  else if c = '3' then some 3 else if c = '4' then some 4 else if c = '5' then some 5
  else if c = '6' then some 6 else if c = '7' then some 7 else if c = '8' then some 8
  else if c = '9' then some 9 else none

/-- Fragment of the JS `Number` conversion covering strings of decimal
digits (everything else is taken to `NaN`), used to instantiate the
theorems, which quantify over the conversion, at concrete inputs. -/
def decimalNum (s : String) : Option ℚ :=
  match s.data with
  | [] => none
  | cs =>
    (cs.foldl (fun (acc : Option Nat) c =>
      match acc, charDigit c with
      | some n, some d => some (n * 10 + d)
      | _, _ => none) (some 0)).map (fun n => (n : ℚ))

end Pagination

namespace Carousel

/-- A product image descriptor. -/
structure Image where
  id : String
  url : String
  altText : String
deriving DecidableEq, Repr

/-- The `withImageWidth(url, width)` helper of the product route
(`url.includes('?')` is written as a scan of the character list, which
the kernel can evaluate, unlike `String.contains`). -/
def withImageWidth (url : String) (width : Nat) : String :=
  if url.data.any (fun c => c = '?') then url ++ "&width=" ++ toString width
  else url ++ "?width=" ++ toString width

/-- The fade phase of the carousel. -/
inductive Phase where
  | idle
  | fadeOut
  | fadeIn
deriving DecidableEq, Repr

/-- The memoized `images` value: the base list, with the selected
variant's image prepended when its id is absent from the base list. -/
def computeImages (base : List Image) : Option Image → List Image
  | none => base
  | some v => if base.any (fun im => im.id = v.id) then base else v :: base

/-- The component state of the product page's image presentation
controller. `effectTimer` is the fade-out timer scheduled by the
transition effect (it captures the pending index); `fadeInTimer` counts
the live fade-in timers scheduled from inside fade-out callbacks (those
are never registered in an effect cleanup, so several can be live);
`sweepTimer` is the debounced background-preload timer; `preloads` is a
ghost log of the URLs handed to `preloadImage`. -/
structure State where
  baseImages : List Image
  variantImage : Option Image
  images : List Image
  activeIndex : Nat
  displayIndex : Nat
  pendingIndex : Option Nat
  phase : Phase
  loadedUrls : List String
  effectTimer : Option Nat
  fadeInTimer : Nat
  sweepTimer : Bool
  preloads : List String
deriving DecidableEq, Repr

/-- One evaluation of the transition effect (deps: `pendingIndex`,
`displayIndex`, `loadedImages`, `images`). Re-running the effect first
clears the fade-out timer it had scheduled (the cleanup), then either
clears a pending index equal to the display index, returns early when the
target is absent or unloaded, or enters `fade-out` and schedules the
fade-out timer. -/
def transEval (s : State) : State :=
  let s0 := { s with effectTimer := none }
  match s.pendingIndex with
  | none => s0
  | some p =>
    if p = s.displayIndex then { s0 with pendingIndex := none }
    else match s.images.get? p with
      | none => s0
      | some target =>
        if withImageWidth target.url 800 ∈ s.loadedUrls then
          { s0 with phase := Phase.fadeOut, effectTimer := some p }
        else s0

/-- The 800px target URLs of the image list, skipping images with a falsy
`url` (as `filter(Boolean)` does). -/
def targetUrls (images : List Image) : List String :=
  images.filterMap (fun im =>
    if im.url = "" then none else some (withImageWidth im.url 800))

/-- One evaluation of the background-sweep effect (deps: `images`,
`loadedImages`): clears its debounce timer, then re-arms it unless the
list is empty or every target URL is already loaded. -/
def sweepEval (s : State) : State :=
  let s0 := { s with sweepTimer := false }
  if s.images = [] then s0
  else if (targetUrls s.images).all (fun u => u ∈ s.loadedUrls) then s0
  else { s0 with sweepTimer := true }

/-- One evaluation of the variant-image effect (deps: `variantImage?.id`,
`images`): snap to the image matching the selected variant when there is
one, otherwise reset an out-of-range display index to 0. -/
def variantEval (s : State) : State :=
  match s.variantImage with
  | some v =>
    match s.images.findIdx? (fun im => im.id = v.id) with
    | some m =>
      { s with activeIndex := m, displayIndex := m,
               pendingIndex := none, phase := Phase.idle }
    | none =>
      if ¬ s.images = [] ∧ s.images.length ≤ s.displayIndex then
        { s with activeIndex := 0, displayIndex := 0 }
      else s
  | none =>
    if ¬ s.images = [] ∧ s.images.length ≤ s.displayIndex then
      { s with activeIndex := 0, displayIndex := 0 }
    else s

/-- Step for `markLoaded(url)` (the preload-success callback): ignored for a falsy URL; returns the previous set
unchanged when the URL is already present (so no re-render, hence no
effect run), otherwise inserts the URL and lets the effects whose deps
include `loadedImages` re-run. -/
def stepPreloadDone (u : String) (s : State) : State :=
  if u = "" then s
  else if u ∈ s.loadedUrls then s
  else transEval (sweepEval { s with loadedUrls := u :: s.loadedUrls })

/-- The preload `switchTo(index)` starts: the target's 800px URL when the
target exists, has a truthy URL, and is not yet loaded; nothing
otherwise. -/
def switchPreloads (s : State) (i : Nat) : List String :=
  match s.images.get? i with
  | none => []
  | some target =>
    if target.url = "" then []
    else if withImageWidth target.url 800 ∈ s.loadedUrls then []
    else [withImageWidth target.url 800]

/-- Step for `switchTo(index)`: ignored when the list is empty or the index is the
active one; otherwise starts a preload when the target exists, has a
truthy URL and is not yet loaded, then sets `activeIndex` and
`pendingIndex` and lets the transition effect re-run. -/
def stepSwitch (i : Nat) (s : State) : State :=
  if s.images = [] ∨ i = s.activeIndex then s
  else
    transEval { s with preloads := s.preloads ++ switchPreloads s i,
                       activeIndex := i, pendingIndex := some i }

/-- A change of the selected variant's image. The `images` memo and the
variant effect both depend on the variant image only through its id, so a
change that keeps the id is invisible. The effects re-run in declaration
order with the committed values (the transient same-commit pass, which
only affects the `phase` value when a variant change lands mid-transition,
is not modelled). -/
def stepVariant (v : Option Image) (s : State) : State :=
  if (v.map Image.id) = (s.variantImage.map Image.id) then s
  else
    let imgs := computeImages s.baseImages v
    transEval (sweepEval (variantEval
      { s with variantImage := v, images := imgs }))

/-- The fade-out timer fires: swap `displayIndex` to the captured pending
index, enter `fade-in`, schedule a fade-in timer; the transition effect
then re-runs (its `displayIndex` dep changed) and clears the now-equal
pending index. -/
def stepFireFadeOut (s : State) : State :=
  match s.effectTimer with
  | none => s
  | some p =>
    transEval { s with effectTimer := none, displayIndex := p,
                       phase := Phase.fadeIn, fadeInTimer := s.fadeInTimer + 1 }

/-- A fade-in timer fires: return to `idle` and clear the pending index. -/
def stepFireFadeIn (s : State) : State :=
  if s.fadeInTimer = 0 then s
  else transEval { s with fadeInTimer := s.fadeInTimer - 1,
                          phase := Phase.idle, pendingIndex := none }

/-- The background-sweep timer fires: start a preload for every image
whose 800px URL is not yet loaded. Only the ghost preload log changes, so
no effect re-runs. -/
def stepFireSweep (s : State) : State :=
  if s.sweepTimer then
    { s with sweepTimer := false,
             preloads := s.preloads ++
               (targetUrls s.images).filter (fun u => ¬ u ∈ s.loadedUrls) }
  else s

/-- The events the controller reacts to. -/
inductive Ev where
  | switchTo (i : Nat)
  | preloadDone (u : String)
  | variantChange (v : Option Image)
  | fireFadeOut
  | fireFadeIn
  | fireSweep
deriving DecidableEq, Repr

/-- The step function of the controller. -/
def step : Ev → State → State
  | Ev.switchTo i => stepSwitch i
  | Ev.preloadDone u => stepPreloadDone u
  | Ev.variantChange v => stepVariant v
  | Ev.fireFadeOut => stepFireFadeOut
  | Ev.fireFadeIn => stepFireFadeIn
  | Ev.fireSweep => stepFireSweep

/-- Run a list of events, first event first. -/
def run (evs : List Ev) (s : State) : State :=
  evs.foldl (fun s e => step e s) s

/-- The state after the initial render and the mount effect pass, for a
product with the given base image list and initially selected variant
image. -/
def initState (base : List Image) (v0 : Option Image) : State :=
  transEval (sweepEval (variantEval
    { baseImages := base
      variantImage := v0
      images := computeImages base v0
      activeIndex := 0
      displayIndex := 0
      pendingIndex := none
      phase := Phase.idle
      loadedUrls := []
      effectTimer := none
      fadeInTimer := 0
      sweepTimer := false
      preloads := [] }))

/-- The states reachable from the initial render by any event sequence. -/
inductive Reachable (base : List Image) (v0 : Option Image) : State → Prop where
  | init : Reachable base v0 (initState base v0)
  | next (e : Ev) {s : State} : Reachable base v0 s → Reachable base v0 (step e s)

/-- The transition effect only ever arms the fade-out timer after checking
that the pending image exists and its 800px URL is loaded. -/
def TimerSafe (s : State) : Prop :=
  ∀ p, s.effectTimer = some p →
    ∃ img, s.images.get? p = some img ∧ withImageWidth img.url 800 ∈ s.loadedUrls

/-- A settled controller state: no transition in progress and no live
timers, with the rendered image equal to the highlighted one. -/
def Quiescent (s : State) : Prop :=
  s.phase = Phase.idle ∧ s.pendingIndex = none ∧ s.effectTimer = none ∧
    s.fadeInTimer = 0 ∧ s.activeIndex = s.displayIndex

/-- The events that can occur without any further user action or variant
selection: preload completions and timer firings. -/
def PassiveEv : Ev → Prop
  | Ev.switchTo _ => False
  | Ev.preloadDone _ => True
  | Ev.variantChange _ => False
  | Ev.fireFadeOut => True
  | Ev.fireFadeIn => True
  | Ev.fireSweep => True

/-- The shape of states reached after an out-of-range `switchTo`: the
display index, phase and image list can no longer move under passive
events. -/
def Stalled (d : Nat) (ph : Phase) (imgs : List Image) (i : Nat) (t : State) : Prop :=
  t.displayIndex = d ∧ t.phase = ph ∧ t.images = imgs ∧ t.effectTimer = none ∧
    t.fadeInTimer = 0 ∧ (t.pendingIndex = some i ∨ t.pendingIndex = none)

end Carousel

namespace Pagination

theorem ratAdd_eq_add (a b : ℚ) : ratAdd a b = a + b := by
  rw [Rat.add_def, ratAdd, mkRat, dif_neg (Nat.mul_ne_zero a.den_nz b.den_nz)]

theorem ratSub_eq_sub (a b : ℚ) : ratSub a b = a - b := by
  rw [Rat.sub_def, ratSub, mkRat, dif_neg (Nat.mul_ne_zero a.den_nz b.den_nz)]

theorem getParam_nil (k : String) : getParam [] k = none := rfl

theorem getParam_cons (kv : String × String) (rest : Params) (k : String) :
    getParam (kv :: rest) k = if kv.1 = k then some kv.2 else getParam rest k := by
  by_cases h : kv.1 = k <;>
    simp [getParam, List.find?_cons_of_pos, List.find?_cons_of_neg, h]

theorem deleteParam_cons (kv : String × String) (rest : Params) (k : String) :
    deleteParam (kv :: rest) k =
      if kv.1 = k then deleteParam rest k else kv :: deleteParam rest k := by
  by_cases h : kv.1 = k <;> simp [deleteParam, List.filter_cons, h]

theorem valuesOf_nil (k : String) : valuesOf [] k = [] := rfl

theorem valuesOf_cons (kv : String × String) (rest : Params) (k : String) :
    valuesOf (kv :: rest) k =
      if kv.1 = k then kv.2 :: valuesOf rest k else valuesOf rest k := by
  by_cases h : kv.1 = k <;> simp [valuesOf, List.filter_cons, h]

theorem getParam_deleteParam (l : Params) (k k' : String) :
    getParam (deleteParam l k) k' = if k' = k then none else getParam l k' := by
  induction l with
  | nil => simp [getParam, deleteParam]
  | cons kv rest ih =>
    rw [deleteParam_cons]
    by_cases h : kv.1 = k
    · rw [if_pos h, ih, getParam_cons]
      by_cases hk : k' = k
      · simp [hk]
      · rw [if_neg (show ¬ kv.1 = k' from fun e => hk (e ▸ h))]
    · rw [if_neg h, getParam_cons, getParam_cons]
      by_cases h2 : kv.1 = k'
      · rw [if_pos h2, if_pos h2, if_neg (show ¬ k' = k from fun e => h (e ▸ h2))]
      · rw [if_neg h2, if_neg h2, ih]

theorem getParam_setParam (l : Params) (k k' v : String) :
    getParam (setParam l k v) k' = if k' = k then some v else getParam l k' := by
  induction l with
  | nil =>
    rw [setParam, getParam_cons]
    by_cases hk : k' = k
    · simp [hk]
    · rw [if_neg (show ¬ (k, v).1 = k' from fun e => hk e.symm), if_neg hk]
  | cons kv rest ih =>
    rw [setParam]
    by_cases h : kv.1 = k
    · rw [if_pos h, getParam_cons]
      by_cases hk : k' = k
      · simp [hk]
      · rw [if_neg (show ¬ k = k' from fun e => hk e.symm), getParam_deleteParam, if_neg hk,
          if_neg hk, getParam_cons, if_neg (show ¬ kv.1 = k' from fun e => hk (e ▸ h))]
    · rw [if_neg h, getParam_cons, getParam_cons]
      by_cases h2 : kv.1 = k'
      · rw [if_pos h2, if_pos h2, if_neg (show ¬ k' = k from fun e => h (e ▸ h2))]
      · rw [if_neg h2, if_neg h2, ih]

theorem valuesOf_deleteParam_of_ne (l : Params) {k k' : String} (h : ¬ k' = k) :
    valuesOf (deleteParam l k) k' = valuesOf l k' := by
  induction l with
  | nil => rfl
  | cons kv rest ih =>
    rw [deleteParam_cons]
    by_cases hk : kv.1 = k
    · rw [if_pos hk, ih, valuesOf_cons,
        if_neg (show ¬ kv.1 = k' from fun e => h (e ▸ hk))]
    · rw [if_neg hk, valuesOf_cons, valuesOf_cons]
      by_cases h2 : kv.1 = k'
      · rw [if_pos h2, if_pos h2, ih]
      · rw [if_neg h2, if_neg h2, ih]

theorem valuesOf_setParam_of_ne (l : Params) {k k' : String} (v : String) (h : ¬ k' = k) :
    valuesOf (setParam l k v) k' = valuesOf l k' := by
  induction l with
  | nil =>
    rw [setParam, valuesOf_cons, if_neg (show ¬ k = k' from fun e => h e.symm), valuesOf_nil]
  | cons kv rest ih =>
    rw [setParam]
    by_cases hk : kv.1 = k
    · rw [if_pos hk, valuesOf_cons, if_neg (show ¬ k = k' from fun e => h e.symm),
        valuesOf_deleteParam_of_ne rest h, valuesOf_cons,
        if_neg (show ¬ kv.1 = k' from fun e => h (e ▸ hk))]
    · rw [if_neg hk, valuesOf_cons, valuesOf_cons]
      by_cases h2 : kv.1 = k'
      · rw [if_pos h2, if_pos h2, ih]
      · rw [if_neg h2, if_neg h2, ih]

end Pagination

namespace Pagination

theorem buildPageUrl_path (loc : Url) (c d : Option String) (p : ℚ) :
    (buildPageUrl loc c d p).path = loc.path := by
  rw [buildPageUrl]
  split <;> rfl

theorem getParam_buildPageUrl_cursor (loc : Url) (c d : Option String) (p : ℚ) :
    getParam (buildPageUrl loc c d p).params "cursor" =
      if isTruthy c ∧ isTruthy d then some (c.getD "") else none := by
  rw [buildPageUrl]
  split
  · rw [getParam_setParam, if_neg (by decide), getParam_setParam, if_pos rfl]
  · rw [getParam_deleteParam, if_neg (by decide), getParam_deleteParam, if_pos rfl]

theorem getParam_buildPageUrl_direction (loc : Url) (c d : Option String) (p : ℚ) :
    getParam (buildPageUrl loc c d p).params "direction" =
      if isTruthy c ∧ isTruthy d then some (d.getD "") else none := by
  rw [buildPageUrl]
  split
  · rw [getParam_setParam, if_pos rfl]
  · rw [getParam_deleteParam, if_pos rfl]

theorem getParam_buildPageUrl_page (loc : Url) (c d : Option String) (p : ℚ) :
    getParam (buildPageUrl loc c d p).params "page" = some (jsNumToString p) := by
  rw [buildPageUrl]
  split
  · rw [getParam_setParam, if_neg (by decide), getParam_setParam, if_neg (by decide),
      getParam_setParam, if_pos rfl]
  · rw [getParam_deleteParam, if_neg (by decide), getParam_deleteParam, if_neg (by decide),
      getParam_setParam, if_pos rfl]

theorem valuesOf_buildPageUrl (loc : Url) (c d : Option String) (p : ℚ) {k : String}
    (h1 : ¬ k = "page") (h2 : ¬ k = "cursor") (h3 : ¬ k = "direction") :
    valuesOf (buildPageUrl loc c d p).params k = valuesOf loc.params k := by
  rw [buildPageUrl]
  split
  · rw [valuesOf_setParam_of_ne _ _ h3, valuesOf_setParam_of_ne _ _ h2,
      valuesOf_setParam_of_ne _ _ h1]
  · rw [valuesOf_deleteParam_of_ne _ h3, valuesOf_deleteParam_of_ne _ h2,
      valuesOf_setParam_of_ne _ _ h1]

end Pagination

namespace Pagination

theorem one_le_totalPagesOf (len ps : Nat) : 1 ≤ totalPagesOf len ps :=
  le_max_left _ _

theorem len_le_totalPagesOf_mul (len ps : Nat) (hps : 0 < ps) :
    len ≤ totalPagesOf len ps * ps := by
  rw [totalPagesOf]
  rcases Nat.eq_zero_or_pos len with h | h
  · subst h
    exact Nat.zero_le _
  · have h1 : len + ps - 1 = (len - 1) + ps := by omega
    rw [h1, Nat.add_div_right _ hps, Nat.max_eq_right (Nat.le_add_left 1 _)]
    have key := Nat.div_add_mod (len - 1) ps
    have hm : (len - 1) % ps < ps := Nat.mod_lt _ hps
    have hq : ((len - 1) / ps + 1) * ps = ps * ((len - 1) / ps) + ps := by ring
    omega

theorem mul_le_len_of_lt_totalPagesOf (len ps p : Nat) (hps : 0 < ps)
    (hp : p < totalPagesOf len ps) : p * ps ≤ len := by
  rw [totalPagesOf] at hp
  rcases Nat.eq_zero_or_pos len with h | h
  · subst h
    have h0 : (0 + ps - 1) / ps = 0 := by
      apply Nat.div_eq_of_lt
      omega
    have hp0 : p = 0 := by omega
    subst hp0
    simp
  · have h1 : len + ps - 1 = (len - 1) + ps := by omega
    rw [h1, Nat.add_div_right _ hps, Nat.max_eq_right (Nat.le_add_left 1 _)] at hp
    have key := Nat.div_add_mod (len - 1) ps
    have hm : (len - 1) % ps < ps := Nat.mod_lt _ hps
    have h2 : p ≤ (len - 1) / ps := by omega
    have h3 : p * ps ≤ ((len - 1) / ps) * ps := Nat.mul_le_mul_right _ h2
    have h4 : ((len - 1) / ps) * ps = ps * ((len - 1) / ps) := by ring
    omega

theorem flatten_take_drop {α : Type} (ps : Nat) :
    ∀ (k : Nat) (items : List α), items.length ≤ k * ps →
      ((List.range k).map (fun j => (items.drop (j * ps)).take ps)).flatten = items := by
  intro k
  induction k with
  | zero =>
    intro items h
    simp only [Nat.zero_mul, Nat.le_zero] at h
    rw [List.length_eq_zero.mp h]
    rfl
  | succ k ih =>
    intro items h
    rw [List.range_succ_eq_map, List.map_cons, List.flatten_cons, List.map_map]
    have htail :
        (List.map ((fun j => (items.drop (j * ps)).take ps) ∘ Nat.succ) (List.range k)) =
          (List.map (fun j => ((items.drop ps).drop (j * ps)).take ps) (List.range k)) := by
      apply List.map_congr_left
      intro j _
      simp only [Function.comp]
      rw [List.drop_drop]
      rw [Nat.succ_mul, Nat.add_comm]
    have hlen : (items.drop ps).length ≤ k * ps := by
      rw [List.length_drop]
      have : (k + 1) * ps = k * ps + ps := by ring
      omega
    rw [htail, ih (items.drop ps) hlen]
    simp only [Nat.zero_mul, List.drop_zero]
    exact List.take_append_drop ps items

end Pagination

namespace Pagination

/-- C3: for every item list and every pageSize > 0, concatenating the
visible slices of pages 1..totalPages yields exactly the original item
list, the page lengths sum to the number of items, and every page except
possibly the last has exactly pageSize elements. -/
theorem pages_partition {α : Type} (items : List α) (ps : Nat) (hps : 0 < ps) :
    ((List.range (totalPagesOf items.length ps)).map
        (fun j => pageSlice items ps (j + 1))).flatten = items ∧
    ((List.range (totalPagesOf items.length ps)).map
        (fun j => (pageSlice items ps (j + 1)).length)).sum = items.length ∧
    (∀ p : Nat, 1 ≤ p → p < totalPagesOf items.length ps →
      (pageSlice items ps p).length = ps) := by
  have hmap : (fun j => pageSlice items ps (j + 1)) =
      (fun j : Nat => (items.drop (j * ps)).take ps) := by
    funext j
    rw [pageSlice]
    simp
  have hflat :
      ((List.range (totalPagesOf items.length ps)).map
        (fun j => pageSlice items ps (j + 1))).flatten = items := by
    rw [hmap]
    exact flatten_take_drop ps _ items (len_le_totalPagesOf_mul _ _ hps)
  refine ⟨hflat, ?_, ?_⟩
  · have := congrArg List.length hflat
    rw [List.length_flatten, List.map_map] at this
    simpa using this
  · intro p hp1 hp2
    rw [pageSlice, List.length_take, List.length_drop]
    have h1 : p * ps ≤ items.length := mul_le_len_of_lt_totalPagesOf _ _ _ hps hp2
    have h2 : (p - 1) * ps + ps = p * ps := by
      have hp' : p - 1 + 1 = p := by omega
      calc (p - 1) * ps + ps = (p - 1 + 1) * ps := by rw [Nat.succ_mul]
        _ = p * ps := by rw [hp']
    omega

/-- C4: for every value of the page query parameter (numeric or not, 0,
negative, fractional, or far beyond range — captured by quantifying over
the numeric conversion), the computed currentPage satisfies
1 <= currentPage <= totalPages, and malformed inputs (absent, empty, or
non-numeric page values) degrade to page 1. The embedding is a total
function, so no input makes the paginator fail. -/
theorem currentPage_in_range (toNum : String → Option ℚ) (loc : Url) (len : Nat) :
    1 ≤ currentPage toNum loc len ∧
    currentPage toNum loc len ≤ (totalPages len : ℚ) ∧
    ((getParam loc.params "page" = none ∨ getParam loc.params "page" = some "" ∨
        (∀ s, getParam loc.params "page" = some s → toNum s = none)) →
      currentPage toNum loc len = 1) := by
  have htp : (1 : ℚ) ≤ (totalPages len : ℚ) := by
    exact_mod_cast one_le_totalPagesOf len PAGE_SIZE
  refine ⟨le_min (le_max_left _ _) htp, min_le_right _ _, ?_⟩
  intro h
  have hrp : requestedPage toNum loc = 1 := by
    rcases h with h | h | h
    · rw [requestedPage, h]
    · rw [requestedPage, h]
      simp
    · rw [requestedPage]
      cases hg : getParam loc.params "page" with
      | none => rfl
      | some s =>
        have hn := h s hg
        by_cases hs : s = "" <;> simp [hs, hn]
  rw [currentPage, hrp, max_self]
  exact min_eq_left htp

end Pagination

namespace Pagination

theorem some_getD_of_isTruthy {o : Option String} (h : isTruthy o = true) :
    some (o.getD "") = o := by
  cases o with
  | none => exact absurd h (by simp [isTruthy])
  | some s => rfl

/-- C5: when currentPage = totalPages, the next target is
page=1, cursor=endCursor, direction=next exactly when hasNextPage holds
and endCursor is present (truthy), and absent otherwise; when
currentPage = 1, the previous target is page=PAGES_PER_CHUNK (= 4),
cursor=startCursor, direction=previous exactly when hasPreviousPage holds
and startCursor is present, and absent otherwise. -/
theorem cross_chunk_targets (toNum : String → Option ℚ) (loc : Url) (len : Nat)
    (info : PageInfo) :
    (currentPage toNum loc len = (totalPages len : ℚ) →
      (info.hasNextPage = true ∧ isTruthy info.endCursor = true →
        ∃ u, nextUrl toNum loc len info = some u ∧
          u.path = loc.path ∧
          getParam u.params "page" = some "1" ∧
          getParam u.params "cursor" = info.endCursor ∧
          getParam u.params "direction" = some "next") ∧
      (¬ (info.hasNextPage = true ∧ isTruthy info.endCursor = true) →
        nextUrl toNum loc len info = none)) ∧
    (currentPage toNum loc len = 1 →
      (info.hasPreviousPage = true ∧ isTruthy info.startCursor = true →
        ∃ u, prevUrl toNum loc len info = some u ∧
          u.path = loc.path ∧
          getParam u.params "page" = some "4" ∧
          getParam u.params "cursor" = info.startCursor ∧
          getParam u.params "direction" = some "previous") ∧
      (¬ (info.hasPreviousPage = true ∧ isTruthy info.startCursor = true) →
        prevUrl toNum loc len info = none)) := by
  constructor
  · intro hcp
    have hin : ¬ (hasNextPageInChunk toNum loc len = true) := by
      simp [hasNextPageInChunk, hcp]
    constructor
    · intro hn
      refine ⟨buildPageUrl loc info.endCursor (some "next") 1, ?_, ?_, ?_, ?_, ?_⟩
      · rw [nextUrl, if_neg hin, if_pos hn]
      · exact buildPageUrl_path _ _ _ _
      · rw [getParam_buildPageUrl_page]
        have : jsNumToString 1 = "1" := by decide
        rw [this]
      · rw [getParam_buildPageUrl_cursor, if_pos ⟨hn.2, by decide⟩]
        exact some_getD_of_isTruthy hn.2
      · rw [getParam_buildPageUrl_direction, if_pos ⟨hn.2, by decide⟩]
        rfl
    · intro hn
      rw [nextUrl, if_neg hin, if_neg hn]
  · intro hcp
    have hin : ¬ (hasPreviousPageInChunk toNum loc len = true) := by
      simp [hasPreviousPageInChunk, hcp]
    constructor
    · intro hn
      refine ⟨buildPageUrl loc info.startCursor (some "previous") (PAGES_PER_CHUNK : ℚ),
        ?_, ?_, ?_, ?_, ?_⟩
      · rw [prevUrl, if_neg hin, if_pos hn]
      · exact buildPageUrl_path _ _ _ _
      · rw [getParam_buildPageUrl_page]
        have : jsNumToString (PAGES_PER_CHUNK : ℚ) = "4" := by decide
        rw [this]
      · rw [getParam_buildPageUrl_cursor, if_pos ⟨hn.2, by decide⟩]
        exact some_getD_of_isTruthy hn.2
      · rw [getParam_buildPageUrl_direction, if_pos ⟨hn.2, by decide⟩]
        rfl
    · intro hn
      rw [prevUrl, if_neg hin, if_neg hn]

/-- C9: every navigation URL the paginator builds (next target, previous
target, and each page-number link) keeps the current pathname and
preserves every query parameter of the current URL other than page,
cursor and direction unchanged. -/
theorem nav_preserves_other_params (toNum : String → Option ℚ) (loc : Url) (len : Nat)
    (info : PageInfo) (k : String)
    (h1 : ¬ k = "page") (h2 : ¬ k = "cursor") (h3 : ¬ k = "direction") :
    (∀ u, nextUrl toNum loc len info = some u →
      u.path = loc.path ∧ valuesOf u.params k = valuesOf loc.params k) ∧
    (∀ u, prevUrl toNum loc len info = some u →
      u.path = loc.path ∧ valuesOf u.params k = valuesOf loc.params k) ∧
    (∀ u ∈ pageLinks loc len,
      u.path = loc.path ∧ valuesOf u.params k = valuesOf loc.params k) := by
  have hb : ∀ (c d : Option String) (p : ℚ),
      (buildPageUrl loc c d p).path = loc.path ∧
      valuesOf (buildPageUrl loc c d p).params k = valuesOf loc.params k :=
    fun c d p => ⟨buildPageUrl_path _ _ _ _, valuesOf_buildPageUrl _ _ _ _ h1 h2 h3⟩
  refine ⟨?_, ?_, ?_⟩
  · intro u hu
    rw [nextUrl] at hu
    split at hu
    · cases hu
      exact hb _ _ _
    · split at hu
      · cases hu
        exact hb _ _ _
      · exact absurd hu (by simp)
  · intro u hu
    rw [prevUrl] at hu
    split at hu
    · cases hu
      exact hb _ _ _
    · split at hu
      · cases hu
        exact hb _ _ _
      · exact absurd hu (by simp)
  · intro u hu
    rw [pageLinks] at hu
    obtain ⟨i, _, rfl⟩ := List.mem_map.mp hu
    exact hb _ _ _

/-- C1 (amended): whenever currentPage < totalPages the computed next
target, and every page-number link 1..totalPages, carry no cursor or
direction parameters beyond the current URL's own: when the current URL
lacks a truthy cursor or a truthy direction they carry none, and
otherwise they carry exactly the current URL's cursor and direction
(which `buildPageUrl` re-applies through its default arguments). -/
theorem intra_chunk_links_carry_chunk_cursor (toNum : String → Option ℚ) (loc : Url)
    (len : Nat) (info : PageInfo) :
    (currentPage toNum loc len < (totalPages len : ℚ) →
      ∃ u, nextUrl toNum loc len info = some u ∧
        getParam u.params "cursor" =
          (if isTruthy (chunkCursor loc) ∧ isTruthy (chunkDirection loc)
            then chunkCursor loc else none) ∧
        getParam u.params "direction" =
          (if isTruthy (chunkCursor loc) ∧ isTruthy (chunkDirection loc)
            then chunkDirection loc else none)) ∧
    (∀ u ∈ pageLinks loc len,
      getParam u.params "cursor" =
        (if isTruthy (chunkCursor loc) ∧ isTruthy (chunkDirection loc)
          then chunkCursor loc else none) ∧
      getParam u.params "direction" =
        (if isTruthy (chunkCursor loc) ∧ isTruthy (chunkDirection loc)
          then chunkDirection loc else none)) := by
  have hb : ∀ p : ℚ,
      getParam (buildPageUrl loc (chunkCursor loc) (chunkDirection loc) p).params
          "cursor" =
        (if isTruthy (chunkCursor loc) ∧ isTruthy (chunkDirection loc)
          then chunkCursor loc else none) ∧
      getParam (buildPageUrl loc (chunkCursor loc) (chunkDirection loc) p).params
          "direction" =
        (if isTruthy (chunkCursor loc) ∧ isTruthy (chunkDirection loc)
          then chunkDirection loc else none) := by
    intro p
    rw [getParam_buildPageUrl_cursor, getParam_buildPageUrl_direction]
    by_cases h : isTruthy (chunkCursor loc) = true ∧ isTruthy (chunkDirection loc) = true
    · rw [if_pos h, if_pos h, if_pos h, if_pos h,
        some_getD_of_isTruthy h.1, some_getD_of_isTruthy h.2]
      exact ⟨rfl, rfl⟩
    · rw [if_neg h, if_neg h, if_neg h, if_neg h]
      exact ⟨rfl, rfl⟩
  constructor
  · intro hcp
    have hin : hasNextPageInChunk toNum loc len = true := by
      simp [hasNextPageInChunk, hcp]
    exact ⟨_, by rw [nextUrl, if_pos hin], hb _⟩
  · intro u hu
    rw [pageLinks] at hu
    obtain ⟨i, _, rfl⟩ := List.mem_map.mp hu
    exact hb _

end Pagination

namespace Carousel

theorem transEval_images (s : State) : (transEval s).images = s.images := by
  unfold transEval
  repeat' split
  all_goals rfl

theorem transEval_loadedUrls (s : State) : (transEval s).loadedUrls = s.loadedUrls := by
  unfold transEval
  repeat' split
  all_goals rfl

theorem transEval_displayIndex (s : State) : (transEval s).displayIndex = s.displayIndex := by
  unfold transEval
  repeat' split
  all_goals rfl

theorem transEval_activeIndex (s : State) : (transEval s).activeIndex = s.activeIndex := by
  unfold transEval
  repeat' split
  all_goals rfl

theorem transEval_preloads (s : State) : (transEval s).preloads = s.preloads := by
  unfold transEval
  repeat' split
  all_goals rfl

theorem transEval_fadeInTimer (s : State) : (transEval s).fadeInTimer = s.fadeInTimer := by
  unfold transEval
  repeat' split
  all_goals rfl

theorem transEval_sweepTimer (s : State) : (transEval s).sweepTimer = s.sweepTimer := by
  unfold transEval
  repeat' split
  all_goals rfl

theorem sweepEval_effectTimer (s : State) : (sweepEval s).effectTimer = s.effectTimer := by
  unfold sweepEval
  repeat' split
  all_goals rfl

theorem sweepEval_images (s : State) : (sweepEval s).images = s.images := by
  unfold sweepEval
  repeat' split
  all_goals rfl

theorem sweepEval_loadedUrls (s : State) : (sweepEval s).loadedUrls = s.loadedUrls := by
  unfold sweepEval
  repeat' split
  all_goals rfl

theorem sweepEval_displayIndex (s : State) : (sweepEval s).displayIndex = s.displayIndex := by
  unfold sweepEval
  repeat' split
  all_goals rfl

theorem sweepEval_pendingIndex (s : State) : (sweepEval s).pendingIndex = s.pendingIndex := by
  unfold sweepEval
  repeat' split
  all_goals rfl

theorem sweepEval_phase (s : State) : (sweepEval s).phase = s.phase := by
  unfold sweepEval
  repeat' split
  all_goals rfl

theorem sweepEval_fadeInTimer (s : State) : (sweepEval s).fadeInTimer = s.fadeInTimer := by
  unfold sweepEval
  repeat' split
  all_goals rfl

theorem timerSafe_transEval (s : State) : TimerSafe (transEval s) := by
  intro p hp
  rw [transEval_images, transEval_loadedUrls]
  unfold transEval at hp
  split at hp
  · exact absurd hp (by simp)
  · split at hp
    · exact absurd hp (by simp)
    · split at hp
      · exact absurd hp (by simp)
      · rename_i p' hpd target htarget
        split at hp
        · rename_i hmem
          simp only [Option.some.injEq] at hp
          subst hp
          exact ⟨target, htarget, hmem⟩
        · exact absurd hp (by simp)

theorem reachable_timerSafe (base : List Image) (v0 : Option Image) (s : State)
    (h : Reachable base v0 s) : TimerSafe s := by
  induction h with
  | init => exact timerSafe_transEval _
  | next e a ih =>
    rename_i t
    cases e with
    | switchTo i =>
      show TimerSafe (stepSwitch i t)
      rw [stepSwitch]
      split
      · exact ih
      · exact timerSafe_transEval _
    | preloadDone u =>
      show TimerSafe (stepPreloadDone u t)
      rw [stepPreloadDone]
      split
      · exact ih
      · split
        · exact ih
        · exact timerSafe_transEval _
    | variantChange v =>
      show TimerSafe (stepVariant v t)
      rw [stepVariant]
      split
      · exact ih
      · exact timerSafe_transEval _
    | fireFadeOut =>
      show TimerSafe (stepFireFadeOut t)
      rw [stepFireFadeOut]
      split
      · exact ih
      · exact timerSafe_transEval _
    | fireFadeIn =>
      show TimerSafe (stepFireFadeIn t)
      rw [stepFireFadeIn]
      split
      · exact ih
      · exact timerSafe_transEval _
    | fireSweep =>
      show TimerSafe (stepFireSweep t)
      rw [stepFireSweep]
      split
      · intro p hp
        simp only [] at hp
        obtain ⟨img, himg, hmem⟩ := ih p hp
        exact ⟨img, himg, hmem⟩
      · exact ih

end Carousel


namespace Carousel

/-- C2 (amended): in every reachable state of the controller, whenever
the armed fade-out timer fires, the new displayIndex points at an image
whose 800px URL is in loadedUrls — the preload/transition path never
swaps to an unconfirmed image. (The unamended claim fails because the
variant-image effect and the out-of-range reset write displayIndex
directly without consulting loadedUrls; see the counterexample.) -/
theorem fade_swap_lands_on_loaded (base : List Image) (v0 : Option Image) (s : State)
    (h : Reachable base v0 s) (p : Nat) (hp : s.effectTimer = some p) :
    (stepFireFadeOut s).displayIndex = p ∧
    ∃ img, (stepFireFadeOut s).images.get? ((stepFireFadeOut s).displayIndex) = some img ∧
      withImageWidth img.url 800 ∈ (stepFireFadeOut s).loadedUrls := by
  obtain ⟨img, himg, hmem⟩ := reachable_timerSafe base v0 s h p hp
  have hstep : stepFireFadeOut s =
      transEval { s with effectTimer := none, displayIndex := p,
                         phase := Phase.fadeIn, fadeInTimer := s.fadeInTimer + 1 } := by
    rw [stepFireFadeOut, hp]
  have hd : (stepFireFadeOut s).displayIndex = p := by
    rw [hstep, transEval_displayIndex]
  refine ⟨hd, img, ?_, ?_⟩
  · rw [hstep, transEval_images, transEval_displayIndex]
    exact himg
  · rw [hstep, transEval_loadedUrls]
    exact hmem

/-- C6: from a quiescent state, calling switchTo(i) with a non-empty
image list, i different from activeIndex, and the target's 800px URL
already in loadedUrls updates activeIndex to i synchronously, enters
fade-out, swaps displayIndex to i when the fade-out timer fires (entering
fade-in), and returns to idle with pendingIndex cleared when the fade-in
timer fires. -/
theorem switchTo_loaded_transitions (s : State) (i : Nat) (img : Image)
    (hq : Quiescent s) (hne : ¬ s.images = []) (hia : ¬ i = s.activeIndex)
    (himg : s.images.get? i = some img)
    (hmem : withImageWidth img.url 800 ∈ s.loadedUrls) :
    (stepSwitch i s).activeIndex = i ∧
    (stepSwitch i s).displayIndex = s.displayIndex ∧
    (stepSwitch i s).phase = Phase.fadeOut ∧
    (stepFireFadeOut (stepSwitch i s)).displayIndex = i ∧
    (stepFireFadeOut (stepSwitch i s)).phase = Phase.fadeIn ∧
    (stepFireFadeIn (stepFireFadeOut (stepSwitch i s))).displayIndex = i ∧
    (stepFireFadeIn (stepFireFadeOut (stepSwitch i s))).phase = Phase.idle ∧
    (stepFireFadeIn (stepFireFadeOut (stepSwitch i s))).pendingIndex = none := by
  obtain ⟨hph, hpi, het, hft, had⟩ := hq
  have hid : ¬ i = s.displayIndex := fun e => hia (e.trans had.symm)
  have hcond : ¬ (s.images = [] ∨ i = s.activeIndex) := by
    intro hc
    rcases hc with hc | hc
    · exact hne hc
    · exact hia hc
  have hstarted : switchPreloads s i = [] := by
    rw [switchPreloads, himg]
    by_cases hu : img.url = "" <;> simp [hu, hmem]
  have h1 : stepSwitch i s =
      { s with activeIndex := i, pendingIndex := some i,
               phase := Phase.fadeOut, effectTimer := some i } := by
    rw [stepSwitch, if_neg hcond, hstarted]
    simp only [transEval, himg, List.append_nil]
    rw [if_neg hid, if_pos hmem]
  have h2 : stepFireFadeOut (stepSwitch i s) =
      { s with activeIndex := i, pendingIndex := none, displayIndex := i,
               phase := Phase.fadeIn, effectTimer := none,
               fadeInTimer := s.fadeInTimer + 1 } := by
    rw [h1, stepFireFadeOut]
    simp only [transEval]
    simp
  have h3 : stepFireFadeIn (stepFireFadeOut (stepSwitch i s)) =
      { s with activeIndex := i, pendingIndex := none, displayIndex := i,
               phase := Phase.idle, effectTimer := none,
               fadeInTimer := s.fadeInTimer } := by
    rw [h2, stepFireFadeIn]
    simp only [transEval]
    simp
  rw [h3, h2, h1]
  exact ⟨rfl, rfl, rfl, rfl, rfl, rfl, rfl, rfl⟩

end Carousel

namespace Carousel

/-- C7: calling switchTo(i) when i equals the current activeIndex, or
when the image list is empty, leaves the entire carousel state unchanged
(activeIndex, displayIndex, pendingIndex, phase, loadedUrls, timers, and
the preload log). -/
theorem switchTo_ignored (s : State) (i : Nat)
    (h : s.images = [] ∨ i = s.activeIndex) : stepSwitch i s = s := by
  rw [stepSwitch, if_pos h]

/-- C8: marking a URL loaded is idempotent: for a URL already in
loadedUrls the preload-success callback leaves the whole state (hence the
loaded-set) unchanged, and completing the same preload twice converges to
the same state as completing it once. -/
theorem preload_idempotent (s : State) (u : String) :
    (u ∈ s.loadedUrls → stepPreloadDone u s = s) ∧
    stepPreloadDone u (stepPreloadDone u s) = stepPreloadDone u s := by
  have hmemcase : ∀ t : State, u ∈ t.loadedUrls → stepPreloadDone u t = t := by
    intro t hm
    rw [stepPreloadDone]
    by_cases h0 : u = ""
    · rw [if_pos h0]
    · rw [if_neg h0, if_pos hm]
  refine ⟨hmemcase s, ?_⟩
  by_cases h0 : u = ""
  · have h1 : stepPreloadDone u s = s := by rw [stepPreloadDone, if_pos h0]
    simp only [h1]
  · by_cases hm : u ∈ s.loadedUrls
    · simp only [hmemcase s hm]
    · apply hmemcase
      rw [stepPreloadDone, if_neg h0, if_neg hm, transEval_loadedUrls, sweepEval_loadedUrls]
      exact List.mem_cons_self u s.loadedUrls

theorem run_nil (t : State) : run [] t = t := rfl

theorem run_cons (e : Ev) (evs : List Ev) (t : State) :
    run (e :: evs) t = run evs (step e t) := rfl

theorem transEval_of_pending_none (t : State) (hp : t.pendingIndex = none) :
    transEval t = { t with effectTimer := none } := by
  simp only [transEval, hp]

theorem transEval_of_target_none (t : State) (i : Nat) (hp : t.pendingIndex = some i)
    (hne : ¬ i = t.displayIndex) (hoor : t.images.get? i = none) :
    transEval t = { t with effectTimer := none } := by
  simp only [transEval, hp, hoor]
  rw [if_neg hne]

theorem stalled_step (d : Nat) (ph : Phase) (imgs : List Image) (i : Nat)
    (hoor : imgs.get? i = none) (hid : ¬ i = d) :
    ∀ (e : Ev) (t : State), PassiveEv e → Stalled d ph imgs i t →
      Stalled d ph imgs i (step e t) := by
  intro e t hp ht
  obtain ⟨htd, htp, hti, hte, htf, htpi⟩ := ht
  have htrans : ∀ t' : State, t'.displayIndex = d → t'.phase = ph → t'.images = imgs →
      t'.fadeInTimer = 0 → (t'.pendingIndex = some i ∨ t'.pendingIndex = none) →
      Stalled d ph imgs i (transEval t') := by
    intro t' h1 h2 h3 h5 h6
    rcases h6 with h6 | h6
    · rw [transEval_of_target_none t' i h6 (fun e => hid (e.trans h1)) (by rw [h3]; exact hoor)]
      exact ⟨h1, h2, h3, rfl, h5, Or.inl h6⟩
    · rw [transEval_of_pending_none t' h6]
      exact ⟨h1, h2, h3, rfl, h5, Or.inr h6⟩
  cases e with
  | switchTo j => exact hp.elim
  | variantChange v => exact hp.elim
  | preloadDone u =>
    show Stalled d ph imgs i (stepPreloadDone u t)
    rw [stepPreloadDone]
    split
    · exact ⟨htd, htp, hti, hte, htf, htpi⟩
    · split
      · exact ⟨htd, htp, hti, hte, htf, htpi⟩
      · apply htrans
        · rw [sweepEval_displayIndex]
          exact htd
        · rw [sweepEval_phase]
          exact htp
        · rw [sweepEval_images]
          exact hti
        · rw [sweepEval_fadeInTimer]
          exact htf
        · rw [sweepEval_pendingIndex]
          exact htpi
  | fireFadeOut =>
    show Stalled d ph imgs i (stepFireFadeOut t)
    rw [stepFireFadeOut, hte]
    exact ⟨htd, htp, hti, hte, htf, htpi⟩
  | fireFadeIn =>
    show Stalled d ph imgs i (stepFireFadeIn t)
    rw [stepFireFadeIn, if_pos htf]
    exact ⟨htd, htp, hti, hte, htf, htpi⟩
  | fireSweep =>
    show Stalled d ph imgs i (stepFireSweep t)
    rw [stepFireSweep]
    split
    · exact ⟨htd, htp, hti, hte, htf, htpi⟩
    · exact ⟨htd, htp, hti, hte, htf, htpi⟩

theorem stalled_run (d : Nat) (ph : Phase) (imgs : List Image) (i : Nat)
    (hoor : imgs.get? i = none) (hid : ¬ i = d) :
    ∀ (evs : List Ev) (t : State), (∀ e ∈ evs, PassiveEv e) →
      Stalled d ph imgs i t → Stalled d ph imgs i (run evs t) := by
  intro evs
  induction evs with
  | nil =>
    intro t _ ht
    exact ht
  | cons e rest ih =>
    intro t hall ht
    rw [run_cons]
    exact ih (step e t) (fun e' he' => hall e' (List.mem_cons_of_mem _ he'))
      (stalled_step d ph imgs i hoor hid e t (hall e (List.mem_cons_self _ _)) ht)

/-- C10: if the image list is non-empty and switchTo(i) is called with i
different from activeIndex but no image at position i, then activeIndex
and pendingIndex are still set to i, no preload is started, displayIndex
and phase are unchanged, and under any further passive events (preload
completions and timer firings) displayIndex and phase never change,
because the transition effect returns without acting when the pending
image is absent. -/
theorem switchTo_out_of_range_freezes (s : State) (i : Nat)
    (htf : s.fadeInTimer = 0)
    (hne : ¬ s.images = []) (hia : ¬ i = s.activeIndex)
    (hoor : s.images.get? i = none) (hid : ¬ i = s.displayIndex) :
    (stepSwitch i s).activeIndex = i ∧
    (stepSwitch i s).pendingIndex = some i ∧
    (stepSwitch i s).preloads = s.preloads ∧
    (stepSwitch i s).displayIndex = s.displayIndex ∧
    (stepSwitch i s).phase = s.phase ∧
    ∀ evs : List Ev, (∀ e ∈ evs, PassiveEv e) →
      (run evs (stepSwitch i s)).displayIndex = s.displayIndex ∧
      (run evs (stepSwitch i s)).phase = s.phase := by
  have hcond : ¬ (s.images = [] ∨ i = s.activeIndex) := by
    intro hc
    rcases hc with hc | hc
    · exact hne hc
    · exact hia hc
  have hstarted : switchPreloads s i = [] := by
    rw [switchPreloads, hoor]
  have h1 : stepSwitch i s =
      { s with activeIndex := i, pendingIndex := some i, effectTimer := none } := by
    rw [stepSwitch, if_neg hcond, hstarted,
      transEval_of_target_none
        { s with preloads := s.preloads ++ [], activeIndex := i, pendingIndex := some i }
        i rfl hid hoor]
    simp
  have hstall : Stalled s.displayIndex s.phase s.images i (stepSwitch i s) := by
    rw [h1]
    exact ⟨rfl, rfl, rfl, rfl, htf, Or.inl rfl⟩
  refine ⟨by rw [h1], by rw [h1], by rw [h1], by rw [h1], by rw [h1], ?_⟩
  intro evs hall
  have := stalled_run s.displayIndex s.phase s.images i hoor hid evs
    (stepSwitch i s) hall hstall
  exact ⟨this.1, this.2.1⟩

end Carousel

namespace Pagination

/-- C1 (counterexample): on a current URL that already carries
cursor=abc and direction=next, with a 51-item chunk (2 pages) and
currentPage 1 < totalPages 2, the computed next target and the page-2
link both carry cursor and direction — refuting the claim that
intra-chunk targets never carry them. -/
theorem intra_chunk_links_cursor_free_cex :
    currentPage decimalNum
        ⟨"/collections/all", [("page", "1"), ("cursor", "abc"), ("direction", "next")]⟩ 51
      < (totalPages 51 : ℚ) ∧
    nextUrl decimalNum
        ⟨"/collections/all", [("page", "1"), ("cursor", "abc"), ("direction", "next")]⟩ 51
        ⟨false, false, none, none⟩ =
      some ⟨"/collections/all", [("page", "2"), ("cursor", "abc"), ("direction", "next")]⟩ ∧
    getParam [("page", "2"), ("cursor", "abc"), ("direction", "next")] "cursor" =
      some "abc" ∧
    pageLink ⟨"/collections/all", [("page", "1"), ("cursor", "abc"), ("direction", "next")]⟩ 2 =
      ⟨"/collections/all", [("page", "2"), ("cursor", "abc"), ("direction", "next")]⟩ := by
  refine ⟨by decide, by decide, by decide, by decide⟩

/-- C1 (witness): on a current URL without cursor/direction, the next
target of a 2-page chunk carries neither parameter. -/
theorem intra_chunk_links_carry_chunk_cursor_witness :
    ∃ u, nextUrl decimalNum ⟨"/c", [("page", "1")]⟩ 51 ⟨false, false, none, none⟩ =
        some u ∧
      getParam u.params "cursor" = none ∧ getParam u.params "direction" = none := by
  have h := (intra_chunk_links_carry_chunk_cursor decimalNum ⟨"/c", [("page", "1")]⟩ 51
    ⟨false, false, none, none⟩).1 (by decide)
  simpa using h

/-- C3 (witness): a 3-item list with page size 2 splits into pages [10, 20]
and [30], whose concatenation is the list. -/
theorem pages_partition_witness :
    0 < 2 ∧
    ((List.range (totalPagesOf ([10, 20, 30] : List Nat).length 2)).map
      (fun j => pageSlice ([10, 20, 30] : List Nat) 2 (j + 1))).flatten = [10, 20, 30] :=
  ⟨by decide, (pages_partition [10, 20, 30] 2 (by decide)).1⟩

/-- C4 (witness): with no page parameter at all, currentPage is 1 and in
range. -/
theorem currentPage_in_range_witness :
    1 ≤ currentPage decimalNum ⟨"/c", []⟩ 137 ∧
    currentPage decimalNum ⟨"/c", []⟩ 137 = 1 :=
  ⟨(currentPage_in_range decimalNum ⟨"/c", []⟩ 137).1,
   (currentPage_in_range decimalNum ⟨"/c", []⟩ 137).2.2 (Or.inl rfl)⟩

/-- C5 (witness): on the single page of a 30-item chunk with both cursors
present, the next target is page=1/cursor=E/direction=next and the
previous target is page=4/cursor=S/direction=previous. -/
theorem cross_chunk_targets_witness :
    (∃ u, nextUrl decimalNum ⟨"/c", [("page", "1")]⟩ 30 ⟨true, true, some "S", some "E"⟩ =
        some u ∧
      u.path = "/c" ∧
      getParam u.params "page" = some "1" ∧
      getParam u.params "cursor" = some "E" ∧
      getParam u.params "direction" = some "next") ∧
    (∃ u, prevUrl decimalNum ⟨"/c", [("page", "1")]⟩ 30 ⟨true, true, some "S", some "E"⟩ =
        some u ∧
      u.path = "/c" ∧
      getParam u.params "page" = some "4" ∧
      getParam u.params "cursor" = some "S" ∧
      getParam u.params "direction" = some "previous") := by
  have h := cross_chunk_targets decimalNum ⟨"/c", [("page", "1")]⟩ 30
    ⟨true, true, some "S", some "E"⟩
  exact ⟨(h.1 (by decide)).1 ⟨rfl, by decide⟩, (h.2 (by decide)).1 ⟨rfl, by decide⟩⟩

/-- C9 (witness): the page-2 link of a 51-item chunk keeps the pathname
and the unrelated q parameter. -/
theorem nav_preserves_other_params_witness :
    (pageLink ⟨"/c", [("page", "1"), ("q", "red")]⟩ 2).path = "/c" ∧
    valuesOf (pageLink ⟨"/c", [("page", "1"), ("q", "red")]⟩ 2).params "q" =
      valuesOf [("page", "1"), ("q", "red")] "q" :=
  (nav_preserves_other_params decimalNum ⟨"/c", [("page", "1"), ("q", "red")]⟩ 51
      ⟨false, false, none, none⟩ "q" (by decide) (by decide) (by decide)).2.2
    (pageLink ⟨"/c", [("page", "1"), ("q", "red")]⟩ 2) (by decide)

end Pagination

namespace Carousel

/-- C2 (counterexample): from the initial render of a product with two
base images and no variant image, a variant-image change matching the
second image sets displayIndex to 1 in one reachable step while its 800px
URL is not in loadedUrls — and index 1 is not the image shown on initial
render (displayIndex 0). -/
theorem displayIndex_only_loaded_cex :
    Reachable [⟨"gid0", "u0", "a0"⟩, ⟨"gid1", "u1", "a1"⟩] none
      (step (Ev.variantChange (some ⟨"gid1", "u1", "a1"⟩))
        (initState [⟨"gid0", "u0", "a0"⟩, ⟨"gid1", "u1", "a1"⟩] none)) ∧
    (initState [⟨"gid0", "u0", "a0"⟩, ⟨"gid1", "u1", "a1"⟩] none).displayIndex = 0 ∧
    (step (Ev.variantChange (some ⟨"gid1", "u1", "a1"⟩))
        (initState [⟨"gid0", "u0", "a0"⟩, ⟨"gid1", "u1", "a1"⟩] none)).displayIndex = 1 ∧
    (step (Ev.variantChange (some ⟨"gid1", "u1", "a1"⟩))
        (initState [⟨"gid0", "u0", "a0"⟩, ⟨"gid1", "u1", "a1"⟩] none)).images.get? 1 =
      some ⟨"gid1", "u1", "a1"⟩ ∧
    ¬ withImageWidth "u1" 800 ∈
        (step (Ev.variantChange (some ⟨"gid1", "u1", "a1"⟩))
          (initState [⟨"gid0", "u0", "a0"⟩, ⟨"gid1", "u1", "a1"⟩] none)).loadedUrls :=
  ⟨Reachable.next _ Reachable.init, by decide, by decide, by decide, by decide⟩

/-- C2 (witness): in the reachable state where image 1 has been preloaded
and switchTo(1) has armed the fade-out timer, firing the timer swaps
displayIndex to an image whose 800px URL is loaded. -/
theorem fade_swap_lands_on_loaded_witness :
    (stepFireFadeOut (step (Ev.switchTo 1)
        (step (Ev.preloadDone (withImageWidth "u1" 800))
          (initState [⟨"gid0", "u0", "a0"⟩, ⟨"gid1", "u1", "a1"⟩] none)))).displayIndex = 1 ∧
    ∃ img,
      (stepFireFadeOut (step (Ev.switchTo 1)
          (step (Ev.preloadDone (withImageWidth "u1" 800))
            (initState [⟨"gid0", "u0", "a0"⟩, ⟨"gid1", "u1", "a1"⟩] none)))).images.get?
          ((stepFireFadeOut (step (Ev.switchTo 1)
            (step (Ev.preloadDone (withImageWidth "u1" 800))
              (initState [⟨"gid0", "u0", "a0"⟩, ⟨"gid1", "u1", "a1"⟩] none)))).displayIndex) =
        some img ∧
      withImageWidth img.url 800 ∈
        (stepFireFadeOut (step (Ev.switchTo 1)
          (step (Ev.preloadDone (withImageWidth "u1" 800))
            (initState [⟨"gid0", "u0", "a0"⟩, ⟨"gid1", "u1", "a1"⟩] none)))).loadedUrls :=
  fade_swap_lands_on_loaded [⟨"gid0", "u0", "a0"⟩, ⟨"gid1", "u1", "a1"⟩] none
    (step (Ev.switchTo 1) (step (Ev.preloadDone (withImageWidth "u1" 800))
      (initState [⟨"gid0", "u0", "a0"⟩, ⟨"gid1", "u1", "a1"⟩] none)))
    (Reachable.next _ (Reachable.next _ Reachable.init)) 1 (by decide)

/-- C6 (witness): with image 1 preloaded, switchTo(1) from the quiescent
initial state walks idle, fade-out, fade-in, idle, with displayIndex
becoming 1 at the swap. -/
theorem switchTo_loaded_transitions_witness :
    (stepSwitch 1 (step (Ev.preloadDone (withImageWidth "u1" 800))
        (initState [⟨"gid0", "u0", "a0"⟩, ⟨"gid1", "u1", "a1"⟩] none))).activeIndex = 1 ∧
    (stepSwitch 1 (step (Ev.preloadDone (withImageWidth "u1" 800))
        (initState [⟨"gid0", "u0", "a0"⟩, ⟨"gid1", "u1", "a1"⟩] none))).displayIndex =
      (step (Ev.preloadDone (withImageWidth "u1" 800))
        (initState [⟨"gid0", "u0", "a0"⟩, ⟨"gid1", "u1", "a1"⟩] none)).displayIndex ∧
    (stepSwitch 1 (step (Ev.preloadDone (withImageWidth "u1" 800))
        (initState [⟨"gid0", "u0", "a0"⟩, ⟨"gid1", "u1", "a1"⟩] none))).phase =
      Phase.fadeOut ∧
    (stepFireFadeOut (stepSwitch 1 (step (Ev.preloadDone (withImageWidth "u1" 800))
        (initState [⟨"gid0", "u0", "a0"⟩, ⟨"gid1", "u1", "a1"⟩] none)))).displayIndex = 1 ∧
    (stepFireFadeOut (stepSwitch 1 (step (Ev.preloadDone (withImageWidth "u1" 800))
        (initState [⟨"gid0", "u0", "a0"⟩, ⟨"gid1", "u1", "a1"⟩] none)))).phase =
      Phase.fadeIn ∧
    (stepFireFadeIn (stepFireFadeOut (stepSwitch 1
        (step (Ev.preloadDone (withImageWidth "u1" 800))
          (initState [⟨"gid0", "u0", "a0"⟩, ⟨"gid1", "u1", "a1"⟩] none))))).displayIndex = 1 ∧
    (stepFireFadeIn (stepFireFadeOut (stepSwitch 1
        (step (Ev.preloadDone (withImageWidth "u1" 800))
          (initState [⟨"gid0", "u0", "a0"⟩, ⟨"gid1", "u1", "a1"⟩] none))))).phase =
      Phase.idle ∧
    (stepFireFadeIn (stepFireFadeOut (stepSwitch 1
        (step (Ev.preloadDone (withImageWidth "u1" 800))
          (initState [⟨"gid0", "u0", "a0"⟩, ⟨"gid1", "u1", "a1"⟩] none))))).pendingIndex =
      none :=
  switchTo_loaded_transitions
    (step (Ev.preloadDone (withImageWidth "u1" 800))
      (initState [⟨"gid0", "u0", "a0"⟩, ⟨"gid1", "u1", "a1"⟩] none))
    1 ⟨"gid1", "u1", "a1"⟩
    ⟨by decide, by decide, by decide, by decide, by decide⟩
    (by decide) (by decide) (by decide) (by decide)

/-- C7 (witness): switchTo at the currently active index leaves the
initial state untouched. -/
theorem switchTo_ignored_witness :
    stepSwitch 0 (initState [⟨"gid0", "u0", "a0"⟩] none) =
      initState [⟨"gid0", "u0", "a0"⟩] none :=
  switchTo_ignored (initState [⟨"gid0", "u0", "a0"⟩] none) 0 (Or.inr (by decide))

/-- C8 (witness): after the preload of u completes once, completing it
again leaves the state unchanged. -/
theorem preload_idempotent_witness :
    "u" ∈ (step (Ev.preloadDone "u")
        (initState [⟨"gid0", "u0", "a0"⟩] none)).loadedUrls ∧
    stepPreloadDone "u" (step (Ev.preloadDone "u")
        (initState [⟨"gid0", "u0", "a0"⟩] none)) =
      step (Ev.preloadDone "u") (initState [⟨"gid0", "u0", "a0"⟩] none) :=
  ⟨by decide,
   (preload_idempotent (step (Ev.preloadDone "u")
      (initState [⟨"gid0", "u0", "a0"⟩] none)) "u").1 (by decide)⟩

/-- C10 (witness): switchTo(5) on a one-image product sets activeIndex and
pendingIndex to 5, and a run of passive events (a preload completion and
all three timer kinds) leaves displayIndex and phase unchanged. -/
theorem switchTo_out_of_range_freezes_witness :
    (stepSwitch 5 (initState [⟨"gid0", "u0", "a0"⟩] none)).activeIndex = 5 ∧
    (stepSwitch 5 (initState [⟨"gid0", "u0", "a0"⟩] none)).pendingIndex = some 5 ∧
    (run [Ev.preloadDone (withImageWidth "u0" 800), Ev.fireSweep, Ev.fireFadeOut,
        Ev.fireFadeIn]
      (stepSwitch 5 (initState [⟨"gid0", "u0", "a0"⟩] none))).displayIndex =
      (initState [⟨"gid0", "u0", "a0"⟩] none).displayIndex ∧
    (run [Ev.preloadDone (withImageWidth "u0" 800), Ev.fireSweep, Ev.fireFadeOut,
        Ev.fireFadeIn]
      (stepSwitch 5 (initState [⟨"gid0", "u0", "a0"⟩] none))).phase =
      (initState [⟨"gid0", "u0", "a0"⟩] none).phase := by
  have h := switchTo_out_of_range_freezes (initState [⟨"gid0", "u0", "a0"⟩] none) 5
    (by decide) (by decide) (by decide) (by decide) (by decide)
  have hrun := h.2.2.2.2.2
    [Ev.preloadDone (withImageWidth "u0" 800), Ev.fireSweep, Ev.fireFadeOut, Ev.fireFadeIn]
    (by intro e he; fin_cases he <;> trivial)
  exact ⟨h.1, h.2.1, hrun.1, hrun.2⟩

end Carousel
